import Mathlib

/-!
Verification development for the dummy FTP socket-server test harness
(`dummyserver/server.py`).

The harness is embedded shallowly:

* `consume_socket` is modelled as a fuel-indexed loop over a read stream
  `reads : Nat → List Nat` (byte chunks returned by successive `recv` calls);
  the real loop `while not sock.recv(chunks).endswith(b'\r\n'): pass`
  terminates exactly when some fuel bound suffices.
* `_has_ipv6` is modelled as a pure function of a probe environment recording
  whether cPython has IPv6 support compiled in and whether the socket-creation
  and bind calls would succeed.
* The server thread (`SocketServerThread._start_server`, `_handle_socket` and
  the delayed variant) and the scripted handlers built by
  `start_response_handler` (base and FTP variants) are modelled as the event
  traces they produce: socket creation/bind/listen, ready-event setting,
  accepts, drains, gated sends and closes, with accepted sockets identified by
  their iteration index.
-/

/-- The two-byte line terminator `b'\r\n'` that `consume_socket` looks for. -/
def crlf : List Nat := [13, 10]

/-- One `recv` loop of `consume_socket(sock, chunks=65536)`: iteration `pos`
reads the chunk `reads pos`; the loop exits when a chunk ends with CRLF.
`fuel` bounds the number of iterations; `none` means the bound was reached
without the loop exiting. -/
def consume_socket (reads : Nat → List Nat) : Nat → Nat → Option Unit
  | _, 0 => none
  | pos, fuel + 1 =>
    if List.isSuffixOf crlf (reads pos) then some () else consume_socket reads (pos + 1) fuel

/-- If no chunk of the stream ends with CRLF, no fuel makes the loop exit. -/
theorem consume_socket_none_of_no_crlf (reads : Nat → List Nat)
    (h : ∀ i, List.isSuffixOf crlf (reads i) = false) :
    ∀ fuel pos, consume_socket reads pos fuel = none := by
  intro fuel
  induction fuel with
  | zero => intro pos; rfl
  | succ n ih =>
    intro pos
    simp only [consume_socket, h pos, if_false]
    exact ih (pos + 1)

/-- If the loop exits within some fuel starting at `pos`, some chunk at or
after `pos` ends with CRLF. -/
theorem consume_socket_some_imp (reads : Nat → List Nat) :
    ∀ fuel pos, consume_socket reads pos fuel = some () →
      ∃ i, List.isSuffixOf crlf (reads (pos + i)) = true := by
  intro fuel
  induction fuel with
  | zero => intro pos h; simp [consume_socket] at h
  | succ n ih =>
    intro pos h
    by_cases hc : List.isSuffixOf crlf (reads pos) = true
    · exact ⟨0, hc⟩
    · simp only [consume_socket, hc, if_false] at h
      obtain ⟨i, hi⟩ := ih (pos + 1) h
      exact ⟨i + 1, by simpa [Nat.add_assoc, Nat.add_comm 1 i] using hi⟩

/-- If the chunk at `pos + i` ends with CRLF, fuel `i + 1` makes the loop
started at `pos` exit. -/
theorem consume_socket_some_of_crlf (reads : Nat → List Nat) :
    ∀ i pos, List.isSuffixOf crlf (reads (pos + i)) = true →
      consume_socket reads pos (i + 1) = some () := by
  intro i
  induction i with
  | zero => intro pos h; simp only [Nat.add_zero] at h; simp [consume_socket, h]
  | succ k ih =>
    intro pos h
    by_cases hc : List.isSuffixOf crlf (reads pos) = true
    · simp [consume_socket, hc]
    · simp only [consume_socket, hc, if_false]
      exact ih (pos + 1) (by simpa [Nat.add_assoc, Nat.add_comm 1 k] using h)

/-- A read stream whose peer has closed: every `recv` returns zero bytes. -/
def closedStream : Nat → List Nat := fun _ => []

/-- C2 counterexample: against a peer that has closed the connection (every
read returns zero bytes, so no read ever ends with the terminator),
`consume_socket` never returns — no fuel bound makes the loop exit, refuting
the claim that end-of-stream is treated as completion. -/
theorem consume_socket_eof_never_returns :
    ¬ ∃ fuel, consume_socket closedStream 0 fuel = some () := by
  rintro ⟨fuel, h⟩
  rw [consume_socket_none_of_no_crlf closedStream (fun i => rfl) fuel 0] at h
  exact Option.noConfusion h

/-- C2 (amended): `consume_socket` returns exactly when the bytes of some
single read end with CR LF; a zero-byte read (peer closed) does not end with
the terminator, so end-of-stream without a terminator makes the loop run
forever rather than being treated as completion. -/
theorem consume_socket_terminates_iff (reads : Nat → List Nat) :
    ((∃ fuel, consume_socket reads 0 fuel = some ()) ↔
      (∃ i, List.isSuffixOf crlf (reads i) = true)) ∧
    List.isSuffixOf crlf ([] : List Nat) = false := by
  refine ⟨⟨?_, ?_⟩, rfl⟩
  · rintro ⟨fuel, h⟩
    obtain ⟨i, hi⟩ := consume_socket_some_imp reads fuel 0 h
    exact ⟨i, by simpa using hi⟩
  · rintro ⟨i, hi⟩
    exact ⟨i + 1, consume_socket_some_of_crlf reads i 0 (by simpa using hi)⟩

/-- A stream that splits the terminator across two reads: the first chunk is
`xs` followed by a lone CR, the second chunk is a lone LF, and afterwards the
peer is closed (zero-byte reads). -/
def splitStream (xs : List Nat) : Nat → List Nat :=
  fun i => if i = 0 then xs ++ [13] else if i = 1 then [10] else []

/-- A chunk whose last byte is CR (13) does not end with CR LF. -/
theorem not_isSuffixOf_crlf_concat_cr (xs : List Nat) :
    List.isSuffixOf crlf (xs ++ [13]) = false := by
  rw [Bool.eq_false_iff]
  intro h
  rw [List.isSuffixOf_iff_suffix] at h
  obtain ⟨t, ht⟩ := h
  have ht' : (t ++ [13]) ++ [10] = xs ++ [13] := by
    simpa [crlf, List.append_assoc] using ht
  have := List.append_inj_right' ht' (by simp)
  simp at this

/-- C10: `consume_socket` completes only when a single read's bytes end with
CR LF.  When the terminator is split across two reads — CR at the end of one
chunk, LF alone at the start of the next — neither read satisfies the
`endswith` check and the drain does not complete on that terminator. -/
theorem consume_socket_split_terminator (xs : List Nat) :
    List.isSuffixOf crlf (splitStream xs 0) = false ∧
    List.isSuffixOf crlf (splitStream xs 1) = false ∧
    ¬ ∃ fuel, consume_socket (splitStream xs) 0 fuel = some () := by
  have h0 : List.isSuffixOf crlf (splitStream xs 0) = false := by
    simpa [splitStream] using not_isSuffixOf_crlf_concat_cr xs
  refine ⟨h0, by simp [splitStream, crlf, List.isSuffixOf], ?_⟩
  rintro ⟨fuel, h⟩
  have hall : ∀ i, List.isSuffixOf crlf (splitStream xs i) = false := by
    intro i
    match i with
    | 0 => exact h0
    | 1 => simp [splitStream, crlf, List.isSuffixOf]
    | n + 2 => simp [splitStream, crlf, List.isSuffixOf]
  rw [consume_socket_none_of_no_crlf (splitStream xs) hall fuel 0] at h
  exact Option.noConfusion h

/-- Environment of one `_has_ipv6(host)` probe: whether cPython was compiled
with IPv6 support (`socket.has_ipv6`), whether `socket.socket(AF_INET6)`
would succeed, and whether `sock.bind((host, 0))` would succeed for a given
host. -/
structure ProbeEnv where
  has_ipv6 : Bool
  create_ok : Bool
  bind_ok : String → Bool

/-- Observable outcome of one `_has_ipv6(host)` call: the returned boolean,
whether a probe socket object was created, whether `sock.close()` was called
on it, and whether an exception propagated out of the call. -/
structure ProbeOutcome where
  result : Bool
  created : Bool
  closed : Bool
  raised : Bool
deriving DecidableEq

/-- Model of `_has_ipv6(host)`: `sock = None; has_ipv6 = False`; if `socket.has_ipv6`,
try to create an `AF_INET6` socket and bind it to `(host, 0)`, setting
`has_ipv6 = True` on success and swallowing every exception with a bare
`except: pass`; finally `if sock: sock.close()` and return `has_ipv6`. -/
def _has_ipv6 (env : ProbeEnv) (host : String) : ProbeOutcome :=
  if env.has_ipv6 then
    if env.create_ok then
      if env.bind_ok host then
        ⟨true, true, true, false⟩
      else
        ⟨false, true, true, false⟩
    else
      ⟨false, false, false, false⟩
  else
    ⟨false, false, false, false⟩

/-- C7: for every host and probe environment, `_has_ipv6` returns true iff a
probe socket was created and the bind to `(host, 0)` succeeds; it never
propagates a creation or bind failure; and it closes the probe socket exactly
when one was created. -/
theorem has_ipv6_probe_spec (env : ProbeEnv) (host : String) :
    ((_has_ipv6 env host).result = true ↔
      ((_has_ipv6 env host).created = true ∧ env.bind_ok host = true)) ∧
    (_has_ipv6 env host).raised = false ∧
    (_has_ipv6 env host).closed = (_has_ipv6 env host).created := by
  obtain ⟨h6, hc, hb⟩ := env
  cases h6 <;> cases hc <;> cases hhb : hb host <;>
    simp_all [_has_ipv6]

/-- Address family of a listening socket. -/
inductive Fam where
  | ipv4
  | ipv6
deriving DecidableEq

/-- Observable events of a harness run.  Accepted connection sockets are
identified by the iteration index at which `listener.accept()` returned
them. -/
inductive Ev where
  | warnNoIPv6
  | createListener (fam : Fam)
  | setReuseAddr
  | bindListener
  | publishPort
  | listen
  | setReady
  | iterReady
  | accept (i : Nat)
  | consume (i : Nat)
  | gateWait (i : Nat)
  | gateClear (i : Nat)
  | send (i : Nat) (payload : List Nat)
  | closeListener
  | closeSock (i : Nat)
deriving DecidableEq

/-- Events of `SocketServerThread._start_server` up to and including
`sock.listen(0)`: family selection (with the IPv4-fallback warning),
`SO_REUSEADDR` (skipped on win32), `bind((host, 0))`, publishing
`self.port`, and `listen`. -/
def startServerPre (useIPv6 notWin : Bool) : List Ev :=
  (if useIPv6 then [] else [Ev.warnNoIPv6]) ++
  [Ev.createListener (if useIPv6 then Fam.ipv6 else Fam.ipv4)] ++
  (if notWin then [Ev.setReuseAddr] else []) ++
  [Ev.bindListener, Ev.publishPort, Ev.listen]

/-- Full event trace of `SocketServerThread._start_server`: the pre-listen
events, then `ready_event.set()` when a ready event was supplied, then the
events of `self._handle_socket(sock)`. -/
def startServerTrace (useIPv6 notWin hasReady : Bool) (handleTr : List Ev) : List Ev :=
  startServerPre useIPv6 notWin ++ (if hasReady then [Ev.setReady] else []) ++ handleTr

/-- Base `SocketServerThread._handle_socket`: run the socket handler, then close
the listening socket. -/
def handleSocketTrace (handlerTr : List Ev) : List Ev :=
  handlerTr ++ [Ev.closeListener]

/-- Delayed `DelayedSocketServerThread._handle_socket`: run the socket handler and
store its returned socket list; the listening socket is not closed. -/
def delayedHandleSocketTrace (handlerTr : List Ev) : List Ev :=
  handlerTr

/-- One iteration of the scripted handler built by
`SocketDummyServer.start_response_handler`: set the per-iteration ready
event, accept connection `i`, drain the request with `consume_socket`, when a
pacing gate was supplied wait on it and clear it, then send the response. -/
def iterTrace (resp : List Nat) (useGate : Bool) (i : Nat) : List Ev :=
  [Ev.iterReady, Ev.accept i, Ev.consume i] ++
  (if useGate then [Ev.gateWait i, Ev.gateClear i] else []) ++
  [Ev.send i resp]

/-- The scripted handler of `start_response_handler(response, num,
block_send)`: `num` iterations, each appending its accepted socket to the
`socks` list the handler finally returns.  Result: (event trace, returned
socket list). -/
def handlerRun (resp : List Nat) (useGate : Bool) : Nat → List Ev × List Nat
  | 0 => ([], [])
  | n + 1 =>
    ((handlerRun resp useGate n).1 ++ iterTrace resp useGate n,
     (handlerRun resp useGate n).2 ++ [n])

/-- Model of `DelayedCloseSocketDummyServer.cleanup`: close every socket in the
retained list, in order. -/
def cleanupTrace (socks : List Nat) : List Ev :=
  socks.map Ev.closeSock

/-- The bytes a client on connection `i` receives: concatenation of the
payloads of all `send` events addressed to socket `i`, in trace order. -/
def sentTo (i : Nat) (tr : List Ev) : List Nat :=
  (tr.filterMap (fun e =>
    match e with
    | Ev.send j pl => if j = i then some pl else none
    | _ => none)).flatten

/-- Recogniser for accept events. -/
def isAcceptEv : Ev → Bool
  | Ev.accept _ => true
  | _ => false

/-- Recogniser for send events. -/
def isSendEv : Ev → Bool
  | Ev.send _ _ => true
  | _ => false

/-- Recogniser for send events addressed to socket `i`. -/
def isSendToEv (i : Nat) : Ev → Bool
  | Ev.send j _ => j == i
  | _ => false

/-- The function `sentTo` distributes over trace concatenation. -/
theorem sentTo_append (i : Nat) (a b : List Ev) :
    sentTo i (a ++ b) = sentTo i a ++ sentTo i b := by
  simp [sentTo, List.filterMap_append]

/-- One handler iteration sends exactly the response, to its own socket. -/
theorem sentTo_iterTrace (resp : List Nat) (g : Bool) (i j : Nat) :
    sentTo i (iterTrace resp g j) = if j = i then resp else [] := by
  cases g <;> by_cases h : j = i <;> simp [iterTrace, sentTo, h]

/-- The socket list returned by the scripted handler is `[0, …, num-1]`. -/
theorem handlerRun_snd (resp : List Nat) (g : Bool) :
    ∀ n, (handlerRun resp g n).2 = List.range n := by
  intro n
  induction n with
  | zero => rfl
  | succ k ih => simp [handlerRun, ih, List.range_succ]

/-- Every event of the scripted handler trace is a per-connection event. -/
def isConnEv : Ev → Bool
  | Ev.iterReady => true
  | Ev.accept _ => true
  | Ev.consume _ => true
  | Ev.gateWait _ => true
  | Ev.gateClear _ => true
  | Ev.send _ _ => true
  | _ => false

theorem isConnEv_of_mem_iterTrace (resp : List Nat) (g : Bool) (j : Nat) :
    ∀ e ∈ iterTrace resp g j, isConnEv e = true := by
  intro e he
  cases g <;> simp [iterTrace] at he <;>
    (first
      | (rcases he with h | h | h | h | h | h <;> subst h <;> rfl)
      | (rcases he with h | h | h | h <;> subst h <;> rfl))

theorem isConnEv_of_mem_handlerRun (resp : List Nat) (g : Bool) :
    ∀ n, ∀ e ∈ (handlerRun resp g n).1, isConnEv e = true := by
  intro n
  induction n with
  | zero => intro e he; simp [handlerRun] at he
  | succ k ih =>
    intro e he
    simp only [handlerRun, List.mem_append] at he
    rcases he with h | h
    · exact ih e h
    · exact isConnEv_of_mem_iterTrace resp g k e h

/-- Send events in the handler trace are addressed to sockets of completed
iterations. -/
theorem send_mem_handlerRun_lt (resp pl : List Nat) (g : Bool) :
    ∀ n i, Ev.send i pl ∈ (handlerRun resp g n).1 → i < n := by
  intro n
  induction n with
  | zero => intro i h; simp [handlerRun] at h
  | succ k ih =>
    intro i h
    simp only [handlerRun, List.mem_append] at h
    rcases h with h | h
    · exact Nat.lt_succ_of_lt (ih i h)
    · cases g <;> simp [iterTrace] at h <;> omega

/-- Accept events in the handler trace are exactly those of the returned
sockets. -/
theorem accept_mem_handlerRun_iff (resp : List Nat) (g : Bool) :
    ∀ n s, Ev.accept s ∈ (handlerRun resp g n).1 ↔ s < n := by
  intro n
  induction n with
  | zero => intro s; simp [handlerRun]
  | succ k ih =>
    intro s
    simp only [handlerRun, List.mem_append, ih]
    constructor
    · rintro (h | h)
      · exact Nat.lt_succ_of_lt h
      · cases g <;> simp [iterTrace] at h <;> omega
    · intro h
      rcases Nat.lt_succ_iff_lt_or_eq.mp h with h' | h'
      · exact Or.inl h'
      · subst h'; cases g <;> simp [iterTrace]

/-- Sockets not yet accepted have received nothing. -/
theorem sentTo_handlerRun_of_le (resp : List Nat) (g : Bool) :
    ∀ n i, n ≤ i → sentTo i (handlerRun resp g n).1 = [] := by
  intro n
  induction n with
  | zero => intro i _; rfl
  | succ k ih =>
    intro i hi
    simp only [handlerRun, sentTo_append]
    rw [ih i (Nat.le_of_succ_le hi), sentTo_iterTrace]
    simp [Nat.ne_of_lt (Nat.lt_of_succ_le hi)]

/-- Every accepted socket receives exactly the literal response payload. -/
theorem sentTo_handlerRun (resp : List Nat) (g : Bool) :
    ∀ n i, i < n → sentTo i (handlerRun resp g n).1 = resp := by
  intro n
  induction n with
  | zero => intro i hi; omega
  | succ k ih =>
    intro i hi
    simp only [handlerRun, sentTo_append]
    rcases Nat.lt_succ_iff_lt_or_eq.mp hi with h | h
    · rw [ih i h, sentTo_iterTrace]
      simp [Nat.ne_of_gt h]
    · subst h
      rw [sentTo_handlerRun_of_le resp g i i (Nat.le_refl i), sentTo_iterTrace]
      simp

/-- One handler iteration performs exactly one accept. -/
theorem countP_accept_iterTrace (resp : List Nat) (g : Bool) (j : Nat) :
    (iterTrace resp g j).countP isAcceptEv = 1 := by
  cases g <;> simp [iterTrace, List.countP_cons, List.countP_append, isAcceptEv]

/-- One handler iteration performs exactly one send. -/
theorem countP_send_iterTrace (resp : List Nat) (g : Bool) (j : Nat) :
    (iterTrace resp g j).countP isSendEv = 1 := by
  cases g <;> simp [iterTrace, List.countP_cons, List.countP_append, isSendEv]

/-- One handler iteration sends once to its own socket and never to others. -/
theorem countP_sendTo_iterTrace (resp : List Nat) (g : Bool) (i j : Nat) :
    (iterTrace resp g j).countP (isSendToEv i) = if j = i then 1 else 0 := by
  cases g <;> by_cases h : j = i <;>
    simp [iterTrace, List.countP_cons, List.countP_append, isSendToEv, h]

/-- The handler trace for `num = n` contains exactly `n` accepts. -/
theorem countP_accept_handlerRun (resp : List Nat) (g : Bool) :
    ∀ n, ((handlerRun resp g n).1).countP isAcceptEv = n := by
  intro n
  induction n with
  | zero => rfl
  | succ k ih =>
    simp [handlerRun, List.countP_append, ih, countP_accept_iterTrace]

/-- The handler trace for `num = n` contains exactly `n` sends. -/
theorem countP_send_handlerRun (resp : List Nat) (g : Bool) :
    ∀ n, ((handlerRun resp g n).1).countP isSendEv = n := by
  intro n
  induction n with
  | zero => rfl
  | succ k ih =>
    simp [handlerRun, List.countP_append, ih, countP_send_iterTrace]

/-- Each accepted socket is sent to exactly once. -/
theorem countP_sendTo_handlerRun (resp : List Nat) (g : Bool) :
    ∀ n i, i < n → ((handlerRun resp g n).1).countP (isSendToEv i) = 1 := by
  intro n
  induction n with
  | zero => intro i hi; omega
  | succ k ih =>
    intro i hi
    simp only [handlerRun, List.countP_append, countP_sendTo_iterTrace]
    rcases Nat.lt_succ_iff_lt_or_eq.mp hi with h | h
    · rw [ih i h]; simp [Nat.ne_of_gt h]
    · subst h
      have hz : ((handlerRun resp g i).1).countP (isSendToEv i) = 0 := by
        rw [List.countP_eq_zero]
        intro e he hae
        cases e <;> simp [isSendToEv] at hae
        case send j pl =>
          have := send_mem_handlerRun_lt resp pl g i j he
          omega
      rw [hz]; simp

/-- C4: for every `num = k ≥ 1` and every response payload (and with or
without a pacing gate), the scripted handler built by
`start_response_handler` accepts exactly `k` connections, performs exactly
`k` sends in total, and sends the complete literal response payload exactly
once to each accepted connection, regardless of the payload's size. -/
theorem start_response_handler_counts (resp : List Nat) (g : Bool) (k : Nat)
    (_h : 1 ≤ k) :
    ((handlerRun resp g k).1).countP isAcceptEv = k ∧
    ((handlerRun resp g k).1).countP isSendEv = k ∧
    ∀ i, i < k → ((handlerRun resp g k).1).countP (isSendToEv i) = 1 ∧
      sentTo i (handlerRun resp g k).1 = resp := by
  refine ⟨countP_accept_handlerRun resp g k, countP_send_handlerRun resp g k, ?_⟩
  intro i hi
  exact ⟨countP_sendTo_handlerRun resp g k i hi, sentTo_handlerRun resp g k i hi⟩

theorem start_response_handler_counts_witness :
    1 ≤ 2 ∧ ((handlerRun [7, 8] false 2).1).countP isAcceptEv = 2 ∧
      sentTo 1 (handlerRun [7, 8] false 2).1 = [7, 8] :=
  ⟨by decide, (start_response_handler_counts [7, 8] false 2 (by decide)).1,
    ((start_response_handler_counts [7, 8] false 2 (by decide)).2.2 1 (by decide)).2⟩

/-- The handler trace for `num = n` decomposes around any iteration `i < n`. -/
theorem handlerRun_decomp (resp : List Nat) (g : Bool) :
    ∀ n i, i < n → ∃ B, (handlerRun resp g n).1 =
      (handlerRun resp g i).1 ++ iterTrace resp g i ++ B := by
  intro n
  induction n with
  | zero => intro i hi; omega
  | succ k ih =>
    intro i hi
    rcases Nat.lt_succ_iff_lt_or_eq.mp hi with h | h
    · obtain ⟨B, hB⟩ := ih i h
      exact ⟨B ++ iterTrace resp g k, by simp [handlerRun, hB]⟩
    · subst h
      exact ⟨[], by simp [handlerRun]⟩

/-- C8: when a pacing gate (`block_send`) is supplied, then for every
iteration `i`, the handler trace splits as: a part `A` containing no send on
that iteration's connection, then the gate release being consumed
(`block_send.wait()`), then — immediately after — the gate being cleared
(`block_send.clear()`, re-arming it for the next iteration), and only after
that the response send on connection `i`. -/
theorem block_send_gates_response (resp : List Nat) (num i : Nat) (h : i < num) :
    ∃ A B, (handlerRun resp true num).1 = A ++ Ev.gateWait i :: Ev.gateClear i :: B ∧
      (∀ pl, Ev.send i pl ∉ A) ∧ Ev.send i resp ∈ B := by
  obtain ⟨C, hC⟩ := handlerRun_decomp resp true num i h
  refine ⟨(handlerRun resp true i).1 ++ [Ev.iterReady, Ev.accept i, Ev.consume i],
    Ev.send i resp :: C, ?_, ?_, ?_⟩
  · rw [hC]
    simp [iterTrace]
  · intro pl hpl
    rcases List.mem_append.mp hpl with hm | hm
    · exact absurd (send_mem_handlerRun_lt resp pl true i i hm) (Nat.lt_irrefl i)
    · simp at hm
  · exact List.mem_cons_self _ _

theorem block_send_gates_response_witness :
    0 < 1 ∧ ∃ A B, (handlerRun [9] true 1).1 = A ++ Ev.gateWait 0 :: Ev.gateClear 0 :: B ∧
      (∀ pl, Ev.send 0 pl ∉ A) ∧ Ev.send 0 [9] ∈ B :=
  ⟨by decide, block_send_gates_response [9] 1 0 (by decide)⟩

/-- The scripted handler never creates a listening socket. -/
theorem createListener_not_mem_handlerRun (resp : List Nat) (g : Bool) (n : Nat) (f : Fam) :
    Ev.createListener f ∉ (handlerRun resp g n).1 := by
  intro hm
  have := isConnEv_of_mem_handlerRun resp g n _ hm
  simp [isConnEv] at this

/-- The scripted handler never closes an accepted socket. -/
theorem closeSock_not_mem_handlerRun (resp : List Nat) (g : Bool) (n s : Nat) :
    Ev.closeSock s ∉ (handlerRun resp g n).1 := by
  intro hm
  have := isConnEv_of_mem_handlerRun resp g n _ hm
  simp [isConnEv] at this

/-- The scripted handler never closes the listening socket. -/
theorem closeListener_not_mem_handlerRun (resp : List Nat) (g : Bool) (n : Nat) :
    Ev.closeListener ∉ (handlerRun resp g n).1 := by
  intro hm
  have := isConnEv_of_mem_handlerRun resp g n _ hm
  simp [isConnEv] at this

/-- The scripted handler never sets the thread's ready event. -/
theorem setReady_not_mem_handlerRun (resp : List Nat) (g : Bool) (n : Nat) :
    Ev.setReady ∉ (handlerRun resp g n).1 := by
  intro hm
  have := isConnEv_of_mem_handlerRun resp g n _ hm
  simp [isConnEv] at this

/-- Running `cleanup()` only closes accepted sockets, never the listener. -/
theorem closeListener_not_mem_cleanupTrace (socks : List Nat) :
    Ev.closeListener ∉ cleanupTrace socks := by
  simp [cleanupTrace]

/-- C3: on every `_start_server` run with a ready event supplied, the ready
event is set exactly once, and the trace splits as a prefix `P` — containing
the `bind`, the publication of the assigned ephemeral port onto the thread,
and the `listen`, but no accept — followed by the single `ready_event.set()`,
followed by the rest `S`; hence the setting is strictly after bind/listen and
port publication and strictly before any accept the handler performs. -/
theorem ready_event_ordering (useIPv6 notWin : Bool) (handlerTr : List Ev)
    (h : Ev.setReady ∉ handlerTr) :
    (startServerTrace useIPv6 notWin true (handleSocketTrace handlerTr)).count Ev.setReady = 1 ∧
    ∃ P S, startServerTrace useIPv6 notWin true (handleSocketTrace handlerTr) =
        P ++ Ev.setReady :: S ∧
      Ev.setReady ∉ P ∧ Ev.setReady ∉ S ∧
      Ev.bindListener ∈ P ∧ Ev.listen ∈ P ∧ Ev.publishPort ∈ P ∧
      (∀ i, Ev.accept i ∉ P) := by
  have hP1 : Ev.setReady ∉ startServerPre useIPv6 notWin := by
    cases useIPv6 <;> cases notWin <;> decide
  have hS1 : Ev.setReady ∉ handleSocketTrace handlerTr := by
    intro hm
    rcases List.mem_append.mp hm with hm | hm
    · exact h hm
    · simp at hm
  constructor
  · rw [startServerTrace, List.count_append, List.count_append,
      List.count_eq_zero.mpr hP1, List.count_eq_zero.mpr hS1]
    rfl
  · refine ⟨startServerPre useIPv6 notWin, handleSocketTrace handlerTr,
      by simp [startServerTrace], hP1, hS1, ?_, ?_, ?_, ?_⟩
    · cases useIPv6 <;> cases notWin <;> decide
    · cases useIPv6 <;> cases notWin <;> decide
    · cases useIPv6 <;> cases notWin <;> decide
    · intro i
      cases useIPv6 <;> cases notWin <;> simp [startServerPre]

theorem ready_event_ordering_witness :
    Ev.setReady ∉ (handlerRun [7] false 1).1 ∧
    ((startServerTrace true true true
        (handleSocketTrace (handlerRun [7] false 1).1)).count Ev.setReady = 1 ∧
      ∃ P S, startServerTrace true true true
          (handleSocketTrace (handlerRun [7] false 1).1) = P ++ Ev.setReady :: S ∧
        Ev.setReady ∉ P ∧ Ev.setReady ∉ S ∧
        Ev.bindListener ∈ P ∧ Ev.listen ∈ P ∧ Ev.publishPort ∈ P ∧
        (∀ i, Ev.accept i ∉ P)) :=
  ⟨by decide, ready_event_ordering true true (handlerRun [7] false 1).1 (by decide)⟩

/-- The default address-family flag of a `SocketServerThread`:
`USE_IPV6 = HAS_IPV6_AND_DNS`. -/
def USE_IPV6_default (hasIPv6AndDNS : Bool) : Bool := hasIPv6AndDNS

/-- Model of how `IPV4SocketDummyServer._start_server` sets
`cls.server_thread.USE_IPV6 = False` on the thread instance before starting
it, whatever the process-wide probe reported. -/
def ipv4_thread_USE_IPV6 (_hasIPv6AndDNS : Bool) : Bool := false

/-- Full trace of one base-harness (`SocketDummyServer`) run of
`start_response_handler`: the server thread runs `_start_server` with a
ready event and the scripted handler, and `_handle_socket` closes the
listener after the handler returns. -/
def baseRunTrace (useIPv6 notWin : Bool) (resp : List Nat) (g : Bool) (num : Nat) : List Ev :=
  startServerTrace useIPv6 notWin true (handleSocketTrace (handlerRun resp g num).1)

/-- Full trace of one base-harness run with the default address-family
choice `USE_IPV6 = HAS_IPV6_AND_DNS`. -/
def baseHarnessRunTrace (hasIPv6AndDNS notWin : Bool) (resp : List Nat) (g : Bool)
    (num : Nat) : List Ev :=
  baseRunTrace (USE_IPV6_default hasIPv6AndDNS) notWin resp g num

/-- Full trace of one `IPV4SocketDummyServer` run: identical except that the
thread's `USE_IPV6` flag has been forced to `False` for this instance. -/
def ipv4HarnessRunTrace (hasIPv6AndDNS notWin : Bool) (resp : List Nat) (g : Bool)
    (num : Nat) : List Ev :=
  baseRunTrace (ipv4_thread_USE_IPV6 hasIPv6AndDNS) notWin resp g num

/-- C9: even when the process-wide probe (`HAS_IPV6_AND_DNS`) reports true,
the IPv4-only harness's thread opens, binds and accepts on an IPv4 listening
socket — its trace contains the IPv4 listener creation, the bind and the
first accept, and no IPv6 listener creation — while a default-flag thread
started under the same probe result still opens an IPv6 listener, so the
forced flag overrides the default for that thread instance only. -/
theorem ipv4_harness_forces_ipv4 (notWin : Bool) (resp : List Nat) (g : Bool)
    (num : Nat) (h : 1 ≤ num) :
    Ev.createListener Fam.ipv4 ∈ ipv4HarnessRunTrace true notWin resp g num ∧
    Ev.bindListener ∈ ipv4HarnessRunTrace true notWin resp g num ∧
    Ev.accept 0 ∈ ipv4HarnessRunTrace true notWin resp g num ∧
    Ev.createListener Fam.ipv6 ∉ ipv4HarnessRunTrace true notWin resp g num ∧
    Ev.createListener Fam.ipv6 ∈ baseHarnessRunTrace true notWin resp g num := by
  have hacc : Ev.accept 0 ∈ (handlerRun resp g num).1 :=
    (accept_mem_handlerRun_iff resp g num 0).mpr h
  refine ⟨?_, ?_, ?_, ?_, ?_⟩
  · cases notWin <;>
      simp [ipv4HarnessRunTrace, baseRunTrace, startServerTrace, startServerPre,
        ipv4_thread_USE_IPV6]
  · cases notWin <;>
      simp [ipv4HarnessRunTrace, baseRunTrace, startServerTrace, startServerPre,
        ipv4_thread_USE_IPV6]
  · simp only [ipv4HarnessRunTrace, baseRunTrace, startServerTrace,
      handleSocketTrace]
    exact List.mem_append_right _ (List.mem_append_left _ hacc)
  · intro hm
    simp only [ipv4HarnessRunTrace, baseRunTrace, startServerTrace,
      handleSocketTrace] at hm
    rcases List.mem_append.mp hm with hm | hm
    · revert hm; cases notWin <;> decide
    · rcases List.mem_append.mp hm with hm | hm
      · exact createListener_not_mem_handlerRun resp g num Fam.ipv6 hm
      · simp at hm
  · cases notWin <;>
      simp [baseHarnessRunTrace, baseRunTrace, startServerTrace, startServerPre,
        USE_IPV6_default]

theorem ipv4_harness_forces_ipv4_witness :
    1 ≤ 1 ∧
    Ev.createListener Fam.ipv4 ∈ ipv4HarnessRunTrace true true [7] false 1 ∧
    Ev.accept 0 ∈ ipv4HarnessRunTrace true true [7] false 1 ∧
    Ev.createListener Fam.ipv6 ∉ ipv4HarnessRunTrace true true [7] false 1 ∧
    Ev.createListener Fam.ipv6 ∈ baseHarnessRunTrace true true [7] false 1 :=
  ⟨by decide, (ipv4_harness_forces_ipv4 true [7] false 1 (by decide)).1,
    (ipv4_harness_forces_ipv4 true [7] false 1 (by decide)).2.2.1,
    (ipv4_harness_forces_ipv4 true [7] false 1 (by decide)).2.2.2.1,
    (ipv4_harness_forces_ipv4 true [7] false 1 (by decide)).2.2.2.2⟩

/-- Full trace of one delayed-close-harness run of `start_response_handler`:
`DelayedSocketServerThread._handle_socket` stores the handler's returned
socket list instead of closing the listener. -/
def delayedRunTrace (useIPv6 notWin : Bool) (resp : List Nat) (g : Bool) (num : Nat) : List Ev :=
  startServerTrace useIPv6 notWin true (delayedHandleSocketTrace (handlerRun resp g num).1)

/-- The `socks` attribute a `DelayedSocketServerThread` is initialised with
in `__init__`: the empty list. -/
def delayed_thread_initial_socks : List Nat := []

/-- The list `DelayedCloseSocketDummyServer._start_server` snapshots into
`cls.socks`: `super()._start_server(...)` returns as soon as the ready event
fires — after `listen()`, before any connection has been accepted — so
`cls.server_thread.socks` is still the initial empty list at that moment.
The handler later rebinds the thread's `socks` attribute
(`self.socks = self.socket_handler(sock)`) to a fresh list, which does not
change what the earlier snapshot refers to. -/
def delayed_cls_socks_snapshot : List Nat := delayed_thread_initial_socks

/-- Full trace of a delayed-close test: the run followed by the caller's
explicit `cleanup()`, which iterates the snapshotted `cls.socks` list — not
the list the handler returned. -/
def delayedTestTrace (useIPv6 notWin : Bool) (resp : List Nat) (g : Bool) (num : Nat) : List Ev :=
  delayedRunTrace useIPv6 notWin resp g num ++ cleanupTrace delayed_cls_socks_snapshot

/-- C5 counterexample: in a base-variant run (`num = 1`, IPv6, non-win32),
connection socket 0 is accepted but its close event appears nowhere in the
run — the base `_handle_socket` closes only the listener and discards the
handler's returned socket list; and in the delayed-close variant the
accepted socket is not closed either (`cleanup()` iterates the stale empty
snapshot of `cls.socks`), nor is the listening socket ever closed. -/
theorem socket_leak_cex :
    (Ev.accept 0 ∈ baseRunTrace true true [65] false 1 ∧
     Ev.closeSock 0 ∉ baseRunTrace true true [65] false 1) ∧
    (Ev.accept 0 ∈ delayedTestTrace true true [65] false 1 ∧
     Ev.closeSock 0 ∉ delayedTestTrace true true [65] false 1 ∧
     Ev.closeListener ∉ delayedTestTrace true true [65] false 1) := by
  decide

/-- C5 (amended): in the base variant the listening socket is closed at
handler return but no accepted connection socket is ever closed; in the
delayed-close variant nothing is closed at all — `cleanup()` iterates the
stale pre-run snapshot of `cls.socks`, which is the empty list, so it emits
no close event for any socket, and the listening socket is not closed
either. -/
theorem socket_close_behavior (useIPv6 notWin : Bool) (resp : List Nat) (g : Bool)
    (num : Nat) :
    Ev.closeListener ∈ baseRunTrace useIPv6 notWin resp g num ∧
    (∀ s, Ev.closeSock s ∉ baseRunTrace useIPv6 notWin resp g num) ∧
    cleanupTrace delayed_cls_socks_snapshot = [] ∧
    (∀ s, Ev.closeSock s ∉ delayedTestTrace useIPv6 notWin resp g num) ∧
    Ev.closeListener ∉ delayedTestTrace useIPv6 notWin resp g num := by
  refine ⟨?_, ?_, rfl, ?_, ?_⟩
  · simp only [baseRunTrace, startServerTrace, handleSocketTrace]
    exact List.mem_append_right _ (List.mem_append_right _ (List.mem_singleton_self _))
  · intro s hm
    simp only [baseRunTrace, startServerTrace, handleSocketTrace] at hm
    rcases List.mem_append.mp hm with hm | hm
    · revert hm; cases useIPv6 <;> cases notWin <;> simp [startServerPre]
    · rcases List.mem_append.mp hm with hm | hm
      · exact closeSock_not_mem_handlerRun resp g num s hm
      · simp at hm
  · intro s hm
    rcases List.mem_append.mp hm with hm | hm
    · simp only [delayedRunTrace, startServerTrace, delayedHandleSocketTrace] at hm
      rcases List.mem_append.mp hm with hm | hm
      · revert hm; cases useIPv6 <;> cases notWin <;> simp [startServerPre]
      · exact closeSock_not_mem_handlerRun resp g num s hm
    · simp [cleanupTrace, delayed_cls_socks_snapshot, delayed_thread_initial_socks] at hm
  · intro hm
    rcases List.mem_append.mp hm with hm | hm
    · simp only [delayedRunTrace, startServerTrace, delayedHandleSocketTrace] at hm
      rcases List.mem_append.mp hm with hm | hm
      · revert hm; cases useIPv6 <;> cases notWin <;> decide
      · exact closeListener_not_mem_handlerRun resp g num hm
    · exact closeListener_not_mem_cleanupTrace _ hm

theorem socket_close_behavior_witness :
    Ev.closeListener ∈ baseRunTrace true true [65] false 1 ∧
    Ev.closeSock 0 ∉ baseRunTrace true true [65] false 1 ∧
    cleanupTrace delayed_cls_socks_snapshot = [] ∧
    Ev.closeSock 0 ∉ delayedTestTrace true true [65] false 1 ∧
    Ev.closeListener ∉ delayedTestTrace true true [65] false 1 :=
  ⟨(socket_close_behavior true true [65] false 1).1,
    (socket_close_behavior true true [65] false 1).2.1 0,
    (socket_close_behavior true true [65] false 1).2.2.1,
    (socket_close_behavior true true [65] false 1).2.2.2.1 0,
    (socket_close_behavior true true [65] false 1).2.2.2.2⟩

/-- C1 (code bug): the delayed-close harness's `cleanup()` contradicts the
code's own comments ("sockets that need closing later", "a list of sockets
which need cleaning up later").  `DelayedCloseSocketDummyServer._start_server`
snapshots `cls.socks = cls.server_thread.socks` right after the ready event —
before the handler has accepted anything — so the snapshot is the thread's
initial empty list, and `_handle_socket` later rebinds `self.socks` to a
fresh list rather than mutating the snapshotted one.  At the failing input
`num = 1`, `response = b'A'`: the handler run accumulates and returns
socket 0, yet `cleanup()` iterates the stale empty snapshot, emits no close
event, and the retained socket stays open — contradicting the claim that
`cleanup()` closes every socket the most recent handler run accumulated. -/
theorem cleanup_closes_nothing_bug :
    (handlerRun [65] false 1).2 = [0] ∧
    Ev.accept 0 ∈ delayedTestTrace true true [65] false 1 ∧
    delayed_cls_socks_snapshot = [] ∧
    cleanupTrace delayed_cls_socks_snapshot = [] ∧
    Ev.closeSock 0 ∉ delayedTestTrace true true [65] false 1 := by
  decide

/-- Byte values of a string's characters (the harness's literal byte-string
payloads are ASCII). -/
def strBytes (s : String) : List Nat := s.toList.map Char.toNat

/-- Default `welcome_first` payload of
`FTPSocketDummyServer.start_response_handler`. -/
def welcome_first_default : List Nat := strBytes "220 Welcome to ftpdummy 0.1\r\n"

/-- Default `user_resp` payload. -/
def user_resp_default : List Nat := strBytes "230 Login successful.\r\n"

/-- Default `type_i_resp` payload. -/
def type_i_resp_default : List Nat := strBytes "200 Switching to Binary mode.\r\n"

/-- Default `pasv_resp` payload. -/
def pasv_resp_default : List Nat := strBytes "227 Entering Passive Mode (127,0,0,1,?,?).\r\n"

/-- One iteration of the FTP scripted handler: accept, send the welcome line
(unless its payload is falsy/empty), drain the client's request, send the
login line (unless empty), drain, send the binary-mode line (unless empty),
drain, send the passive-mode line (unless empty), then the optional pacing
gate, then the final response payload. -/
def ftpIterTrace (welcome user typei pasv resp : List Nat) (g : Bool) (i : Nat) : List Ev :=
  [Ev.iterReady, Ev.accept i] ++
  (if welcome = [] then [] else [Ev.send i welcome]) ++
  [Ev.consume i] ++
  (if user = [] then [] else [Ev.send i user]) ++
  [Ev.consume i] ++
  (if typei = [] then [] else [Ev.send i typei]) ++
  [Ev.consume i] ++
  (if pasv = [] then [] else [Ev.send i pasv]) ++
  (if g then [Ev.gateWait i, Ev.gateClear i] else []) ++
  [Ev.send i resp]

/-- The FTP scripted handler of
`FTPSocketDummyServer.start_response_handler`: `num` iterations, returning
the list of accepted sockets for delayed cleanup. -/
def ftpHandlerRun (welcome user typei pasv resp : List Nat) (g : Bool) :
    Nat → List Ev × List Nat
  | 0 => ([], [])
  | n + 1 =>
    ((ftpHandlerRun welcome user typei pasv resp g n).1 ++
        ftpIterTrace welcome user typei pasv resp g n,
     (ftpHandlerRun welcome user typei pasv resp g n).2 ++ [n])

/-- One FTP iteration sends, to its own connection, exactly the non-empty
handshake payloads in handshake order followed by the final response. -/
theorem sentTo_ftpIterTrace (w u t p r : List Nat) (g : Bool) (i j : Nat) :
    sentTo i (ftpIterTrace w u t p r g j) = if j = i then w ++ u ++ t ++ p ++ r else [] := by
  by_cases h : j = i <;> cases g <;>
    simp only [ftpIterTrace, sentTo_append] <;>
    split_ifs with h1 h2 h3 h4 <;>
    simp_all [sentTo]

/-- Connections not yet accepted by the FTP handler have received nothing. -/
theorem sentTo_ftpHandlerRun_of_le (w u t p r : List Nat) (g : Bool) :
    ∀ n i, n ≤ i → sentTo i (ftpHandlerRun w u t p r g n).1 = [] := by
  intro n
  induction n with
  | zero => intro i _; rfl
  | succ k ih =>
    intro i hi
    simp only [ftpHandlerRun, sentTo_append]
    rw [ih i (Nat.le_of_succ_le hi), sentTo_ftpIterTrace]
    simp [Nat.ne_of_lt (Nat.lt_of_succ_le hi)]

/-- Every connection accepted by the FTP handler receives exactly the
non-empty handshake payloads in order followed by the final response. -/
theorem sentTo_ftpHandlerRun (w u t p r : List Nat) (g : Bool) :
    ∀ n i, i < n → sentTo i (ftpHandlerRun w u t p r g n).1 = w ++ u ++ t ++ p ++ r := by
  intro n
  induction n with
  | zero => intro i hi; omega
  | succ k ih =>
    intro i hi
    simp only [ftpHandlerRun, sentTo_append]
    rcases Nat.lt_succ_iff_lt_or_eq.mp hi with h | h
    · rw [ih i h, sentTo_ftpIterTrace]
      simp [Nat.ne_of_gt h]
    · subst h
      rw [sentTo_ftpHandlerRun_of_le w u t p r g i i (Nat.le_refl i), sentTo_ftpIterTrace]
      simp

/-- C6: with the default step payloads, each connection of the FTP scripted
handler receives exactly the four literal handshake lines — welcome, login,
binary-mode, passive-mode — in order, each CRLF-terminated, followed by the
test-supplied final payload; and replacing any combination of step payloads
by the empty (falsy) payload skips exactly those steps' sends and no other,
the remaining bytes being unchanged. -/
theorem ftp_handshake_sends (resp : List Nat) (g : Bool) (num : Nat) :
    (∀ i, i < num →
      sentTo i (ftpHandlerRun welcome_first_default user_resp_default
          type_i_resp_default pasv_resp_default resp g num).1 =
        welcome_first_default ++ user_resp_default ++ type_i_resp_default ++
          pasv_resp_default ++ resp) ∧
    List.isSuffixOf crlf welcome_first_default = true ∧
    List.isSuffixOf crlf user_resp_default = true ∧
    List.isSuffixOf crlf type_i_resp_default = true ∧
    List.isSuffixOf crlf pasv_resp_default = true ∧
    (∀ w u t p i, i < num →
      sentTo i (ftpHandlerRun w u t p resp g num).1 = w ++ u ++ t ++ p ++ resp) := by
  refine ⟨?_, by decide, by decide, by decide, by decide, ?_⟩
  · intro i hi
    exact sentTo_ftpHandlerRun _ _ _ _ resp g num i hi
  · intro w u t p i hi
    exact sentTo_ftpHandlerRun w u t p resp g num i hi

theorem ftp_handshake_sends_witness :
    0 < 1 ∧
    sentTo 0 (ftpHandlerRun welcome_first_default user_resp_default
        type_i_resp_default pasv_resp_default [1, 2] false 1).1 =
      welcome_first_default ++ user_resp_default ++ type_i_resp_default ++
        pasv_resp_default ++ [1, 2] ∧
    sentTo 0 (ftpHandlerRun [] user_resp_default type_i_resp_default
        pasv_resp_default [1, 2] false 1).1 =
      [] ++ user_resp_default ++ type_i_resp_default ++ pasv_resp_default ++ [1, 2] :=
  ⟨by decide, (ftp_handshake_sends [1, 2] false 1).1 0 (by decide),
    (ftp_handshake_sends [1, 2] false 1).2.2.2.2.2 [] user_resp_default
      type_i_resp_default pasv_resp_default 0 (by decide)⟩

theorem consume_socket_terminates_iff_witness :
    ((∃ fuel, consume_socket closedStream 0 fuel = some ()) ↔
      (∃ i, List.isSuffixOf crlf (closedStream i) = true)) ∧
    List.isSuffixOf crlf ([] : List Nat) = false :=
  consume_socket_terminates_iff closedStream

theorem consume_socket_split_terminator_witness :
    List.isSuffixOf crlf (splitStream [65] 0) = false ∧
    List.isSuffixOf crlf (splitStream [65] 1) = false ∧
    ¬ ∃ fuel, consume_socket (splitStream [65]) 0 fuel = some () :=
  consume_socket_split_terminator [65]

/-- A probe environment in which everything succeeds. -/
def probeEnvAllOk : ProbeEnv := ⟨true, true, fun _ => true⟩

theorem has_ipv6_probe_spec_witness :
    ((_has_ipv6 probeEnvAllOk "localhost").result = true ↔
      ((_has_ipv6 probeEnvAllOk "localhost").created = true ∧
        probeEnvAllOk.bind_ok "localhost" = true)) ∧
    (_has_ipv6 probeEnvAllOk "localhost").raised = false ∧
    (_has_ipv6 probeEnvAllOk "localhost").closed =
      (_has_ipv6 probeEnvAllOk "localhost").created :=
  has_ipv6_probe_spec probeEnvAllOk "localhost"
